import Mathlib

/-!
Shallow embedding of the serial-port watchdog core of GoSynch
(src/GoSynch.py): the monitoring loop of `SerialMonitorThread.run`,
its read handling and timeout policy, the connection-handle lifecycle
of the `finally` block, and the fresh-session construction performed by
`SerialMonitorApp.start_monitoring`.

Modelling conventions:
* Timestamps are exact rationals measured in seconds; the Python
  `(current_time - self.last_received_time).total_seconds()` becomes
  rational subtraction.  Within one loop iteration the two
  `datetime.datetime.now()` calls (line 44 and line 51) are identified
  as a single model time `t` for that iteration.
* `pollLine`'s outcome at the top of an iteration is an explicit input
  (`ReadOutcome`): nothing waiting, a decoded line (possibly empty or
  whitespace-only), or a read exception carrying its message.  Lossy
  utf-8 decoding is abstracted: the input already is the decoded string.
* Python's `str.strip()` is modelled by `pyStrip`, which removes leading
  and trailing whitespace characters from a string.
* `timeout_occurred` carries the pre-reset `last_received_time`
  timestamp; the code formats it with `strftime`, which is abstracted to
  the timestamp itself.
* The `while self.is_running` loop runs over a finite schedule of
  iterations; the schedule ending models `stop()` having cleared
  `is_running` (the only exit of the loop).  The loop body itself never
  writes `is_running`.
-/

namespace GoSynch

/-- Outcome of polling the serial connection at the top of one loop
iteration (src/GoSynch.py lines 40-42): `noData` when `in_waiting == 0`,
`line raw` when `readline().decode('utf-8', errors='ignore')` returns the
string `raw`, and `readErr msg` when the read raises an exception whose
message is `msg`. -/
inductive ReadOutcome where
  | noData : ReadOutcome
  | line (raw : String) : ReadOutcome
  | readErr (msg : String) : ReadOutcome
deriving DecidableEq

/-- The three `pyqtSignal` events of `SerialMonitorThread` (lines 15-17):
`data_received` carries the stripped line text, `timeout_occurred` carries
the pre-reset `last_received_time` timestamp, and `error_occurred` carries
the error message string. -/
inductive MonitorEvent where
  | data_received (text : String) : MonitorEvent
  | timeout_occurred (last_received_time : ℚ) : MonitorEvent
  | error_occurred (msg : String) : MonitorEvent
deriving DecidableEq

/-- The loop-relevant mutable state of `SerialMonitorThread`:
`last_received_time` (line 26, `None` until set) and `is_running`
(line 25). -/
structure SessState where
  last_received_time : Option ℚ
  is_running : Bool
deriving DecidableEq

/-- Python's `str.strip()` with no argument: remove leading and trailing
whitespace from the string. -/
def pyStrip (s : String) : String :=
  ⟨((s.data.dropWhile Char.isWhitespace).reverse.dropWhile
      Char.isWhitespace).reverse⟩

/-- Lines 40-47 of `SerialMonitorThread.run`: the data-read handling of
one iteration, at model time `t`.  A non-empty (after stripping) line
updates `last_received_time` to `t` and emits one `data_received` with
the stripped text; an empty or whitespace-only line does nothing; a read
exception emits one `error_occurred` and changes nothing else. -/
def readStep (inp : ReadOutcome) (t : ℚ) (last : Option ℚ) :
    Option ℚ × List MonitorEvent :=
  match inp with
  | .noData => (last, [])
  | .line raw =>
      if pyStrip raw ≠ "" then (some t, [.data_received (pyStrip raw)])
      else (last, [])
  | .readErr m => (last, [.error_occurred ("数据读取错误: " ++ m)])

/-- Lines 49-57 of `SerialMonitorThread.run`: the timeout check of one
iteration, at model time `t`, against watchdog threshold
`timeout_seconds`.  When `last_received_time` is set and strictly more
than `timeout_seconds` has elapsed, one `timeout_occurred` is emitted
carrying the pre-reset timestamp, and `last_received_time` is reset to
`t` (line 57). -/
def timeoutStep (timeout_seconds t : ℚ) (last : Option ℚ) :
    Option ℚ × List MonitorEvent :=
  match last with
  | none => (none, [])
  | some l =>
      if t - l > timeout_seconds then (some t, [.timeout_occurred l])
      else (some l, [])

/-- One iteration of the `while self.is_running` loop (lines 39-60):
read handling first, then the timeout check against the possibly-updated
`last_received_time`.  The body never writes `is_running`. -/
def tick (timeout_seconds t : ℚ) (inp : ReadOutcome) (s : SessState) :
    SessState × List MonitorEvent :=
  let r := readStep inp t s.last_received_time
  let w := timeoutStep timeout_seconds t r.1
  (⟨w.1, s.is_running⟩, r.2 ++ w.2)

/-- The monitoring loop over a finite schedule of iterations, each given
by its model time and its poll outcome.  Events are emitted in iteration
order.  The schedule ending models `stop()` having cleared `is_running`,
the only way the `while` loop of lines 39-60 exits. -/
def loop (timeout_seconds : ℚ) (s : SessState) :
    List (ℚ × ReadOutcome) → SessState × List MonitorEvent
  | [] => (s, [])
  | (t, inp) :: rest =>
      let r := tick timeout_seconds t inp s
      let w := loop timeout_seconds r.1 rest
      (w.1, r.2 ++ w.2)

/-- Connection-handle state: `none` models `self.serial_conn = None`
(never assigned), `some b` a pyserial handle whose `is_open` flag is
`b`. -/
def isOpen : Option Bool → Bool
  | some true => true
  | _ => false

/-- Lines 64-66, the `finally` block: `if self.serial_conn and
self.serial_conn.is_open: self.serial_conn.close()`.  Closing is guarded,
so an absent or already-closed handle is left untouched. -/
def closeIfOpen (conn : Option Bool) : Option Bool :=
  match conn with
  | none => none
  | some b => if b then some false else some b

/-- Observable result of one whole execution of
`SerialMonitorThread.run` (lines 28-66). -/
structure RunResult where
  final : SessState
  ever_running : Bool
  serial_conn : Option Bool
  events : List MonitorEvent
deriving DecidableEq

/-- `SerialMonitorThread.run` (lines 28-66).  `openRes` is the outcome of
`serial.Serial(...)` at line 31.  On failure, `is_running` is never set,
`last_received_time` stays `None`, one `error_occurred` is emitted
(line 63) and the `finally` block finds no handle to close.  On success,
`is_running` is set, `last_received_time := startTime` (line 37), the
loop runs over the iteration schedule, and the `finally` block closes the
open handle. -/
def runThread (timeout_seconds : ℚ) (openRes : Except String Unit)
    (startTime : ℚ) (ticks : List (ℚ × ReadOutcome)) : RunResult :=
  match openRes with
  | .error e =>
      { final := ⟨none, false⟩
        ever_running := false
        serial_conn := closeIfOpen none
        events := [.error_occurred ("串口连接错误: " ++ e)] }
  | .ok _ =>
      let r := loop timeout_seconds ⟨some startTime, true⟩ ticks
      { final := ⟨r.1.last_received_time, false⟩
        ever_running := true
        serial_conn := closeIfOpen (some true)
        events := r.2 }

/-- The full field state of a `SerialMonitorThread` object. -/
structure ThreadState where
  port : String
  baudrate : ℕ
  timeout_seconds : ℚ
  serial_conn : Option Bool
  is_running : Bool
  last_received_time : Option ℚ
deriving DecidableEq

/-- `SerialMonitorThread.__init__` (lines 19-26): a fresh thread object
with no connection, not running, and no `last_received_time`. -/
def initThread (port : String) (baudrate : ℕ) (timeout_seconds : ℚ) :
    ThreadState :=
  { port := port
    baudrate := baudrate
    timeout_seconds := timeout_seconds
    serial_conn := none
    is_running := false
    last_received_time := none }

/-- `SerialMonitorApp.start_monitoring` (lines 206-211): a brand-new
`SerialMonitorThread` is constructed from the configuration alone; the
previous thread object (`oldThread`, possibly still holding state from an
earlier session) is not consulted. -/
def start_monitoring (oldThread : Option ThreadState) (port : String)
    (baudrate : ℕ) (timeout_seconds : ℚ) : ThreadState :=
  initThread port baudrate timeout_seconds

/-- Is the event a `timeout_occurred`? -/
def isFire : MonitorEvent → Bool
  | .timeout_occurred _ => true
  | _ => false

/-- Is the event a `data_received`? -/
def isData : MonitorEvent → Bool
  | .data_received _ => true
  | _ => false

/-- Is the event an `error_occurred`? -/
def isErr : MonitorEvent → Bool
  | .error_occurred _ => true
  | _ => false

/-- Number of `timeout_occurred` events in a list. -/
def countFires (evs : List MonitorEvent) : ℕ := evs.countP (fun e => isFire e)

/-- Number of `data_received` events in a list. -/
def countData (evs : List MonitorEvent) : ℕ := evs.countP (fun e => isData e)

/-- Number of `error_occurred` events in a list. -/
def countErrors (evs : List MonitorEvent) : ℕ := evs.countP (fun e => isErr e)

/-- Every iteration of the schedule happens within `timeout_seconds` of
the most recent data arrival, the session start counted as an arrival:
the formal content of "inter-arrival gaps all below the threshold over
the whole observed run" for a schedule whose iteration times are
increasing. -/
def gapsOk (timeout_seconds : ℚ) : ℚ → List (ℚ × ReadOutcome) → Bool
  | _, [] => true
  | l, (t, inp) :: rest =>
      let lr := ((readStep inp t (some l)).1).getD l
      decide (t - lr ≤ timeout_seconds) && gapsOk timeout_seconds lr rest

/-- A silent device polled at fixed cadence `d`: iteration times
`(a+1)*d, (a+2)*d, ..., (a+n)*d`, each with nothing waiting on the
port. -/
def silentSeg (d : ℚ) : ℕ → ℕ → List (ℚ × ReadOutcome)
  | _, 0 => []
  | a, n + 1 => (((a : ℚ) + 1) * d, ReadOutcome.noData) :: silentSeg d (a + 1) n

/-- Number of cadence-`d` steps from a fresh baseline until the watchdog
fires: the least `k` with `k * d > timeout_seconds`. -/
def firePeriod (timeout_seconds d : ℚ) : ℕ := ⌊timeout_seconds / d⌋₊ + 1

/-! ## Helper lemmas -/

theorem tick_is_running (T t : ℚ) (inp : ReadOutcome) (s : SessState) :
    (tick T t inp s).1.is_running = s.is_running := rfl

theorem loop_is_running (T : ℚ) (s : SessState) (ts : List (ℚ × ReadOutcome)) :
    (loop T s ts).1.is_running = s.is_running := by
  induction ts generalizing s with
  | nil => rfl
  | cons head rest ih =>
      obtain ⟨t, inp⟩ := head
      simp [loop, ih, tick_is_running]

theorem readStep_no_fire (inp : ReadOutcome) (t : ℚ) (last : Option ℚ) :
    countFires (readStep inp t last).2 = 0 := by
  cases inp with
  | noData => rfl
  | line raw =>
      by_cases h : pyStrip raw = ""
      · simp [readStep, h, countFires]
      · simp [readStep, h, countFires, List.countP, List.countP.go, isFire]
  | readErr m => simp [readStep, countFires, List.countP, List.countP.go, isFire]

theorem timeoutStep_no_fire (T t l : ℚ) (h : t - l ≤ T) :
    timeoutStep T t (some l) = (some l, []) := by
  simp [timeoutStep, not_lt.mpr h]

theorem loop_append (T : ℚ) (s : SessState) (ts₁ ts₂ : List (ℚ × ReadOutcome)) :
    loop T s (ts₁ ++ ts₂) =
      ((loop T (loop T s ts₁).1 ts₂).1,
        (loop T s ts₁).2 ++ (loop T (loop T s ts₁).1 ts₂).2) := by
  induction ts₁ generalizing s with
  | nil => simp [loop]
  | cons head rest ih =>
      obtain ⟨t, inp⟩ := head
      simp [loop, ih, List.append_assoc]

theorem tick_events (T t : ℚ) (inp : ReadOutcome) (s : SessState) :
    (tick T t inp s).2 =
      (readStep inp t s.last_received_time).2 ++
        (timeoutStep T t (readStep inp t s.last_received_time).1).2 := rfl

theorem countFires_append (a b : List MonitorEvent) :
    countFires (a ++ b) = countFires a + countFires b := by
  simp [countFires, List.countP_append]

theorem countData_append (a b : List MonitorEvent) :
    countData (a ++ b) = countData a + countData b := by
  simp [countData, List.countP_append]

theorem countErrors_append (a b : List MonitorEvent) :
    countErrors (a ++ b) = countErrors a + countErrors b := by
  simp [countErrors, List.countP_append]

theorem timeoutStep_no_data (T t : ℚ) (last : Option ℚ) :
    countData (timeoutStep T t last).2 = 0 := by
  cases last with
  | none => rfl
  | some l =>
      by_cases hgt : t - l > T <;>
        simp [timeoutStep, hgt, countData, List.countP, List.countP.go, isData]

theorem loop_cons (T : ℚ) (s : SessState) (t : ℚ) (inp : ReadOutcome)
    (rest : List (ℚ × ReadOutcome)) :
    loop T s ((t, inp) :: rest) =
      ((loop T (tick T t inp s).1 rest).1,
        (tick T t inp s).2 ++ (loop T (tick T t inp s).1 rest).2) := rfl

theorem readStep_getD (inp : ReadOutcome) (t b : ℚ) :
    (readStep inp t (some b)).1 =
      some (((readStep inp t (some b)).1).getD b) := by
  cases inp with
  | noData => rfl
  | line raw => by_cases hr : pyStrip raw ≠ "" <;> simp [readStep, hr]
  | readErr m => rfl

theorem timeoutStep_no_err (T t : ℚ) (last : Option ℚ) :
    countErrors (timeoutStep T t last).2 = 0 := by
  cases last with
  | none => rfl
  | some l =>
      by_cases hgt : t - l > T <;>
        simp [timeoutStep, hgt, countErrors, List.countP, List.countP.go, isErr]

theorem tick_noData_no_fire (T t b : ℚ) (r : Bool) (h : t - b ≤ T) :
    tick T t .noData ⟨some b, r⟩ = (⟨some b, r⟩, []) := by
  simp [tick, readStep, timeoutStep, not_lt.mpr h]

theorem tick_noData_fire (T t b : ℚ) (r : Bool) (h : t - b > T) :
    tick T t .noData ⟨some b, r⟩ = (⟨some t, r⟩, [.timeout_occurred b]) := by
  simp [tick, readStep, timeoutStep, h]

theorem silentSeg_append (d : ℚ) (a n₁ n₂ : ℕ) :
    silentSeg d a (n₁ + n₂) = silentSeg d a n₁ ++ silentSeg d (a + n₁) n₂ := by
  induction n₁ generalizing a with
  | zero => simp [silentSeg]
  | succ k ih =>
      have h1 : k + 1 + n₂ = (k + n₂) + 1 := by omega
      have h2 : a + 1 + k = a + (k + 1) := by omega
      rw [h1]
      show (((a : ℚ) + 1) * d, ReadOutcome.noData) ::
          silentSeg d (a + 1) (k + n₂) =
        ((((a : ℚ) + 1) * d, ReadOutcome.noData) :: silentSeg d (a + 1) k) ++
          silentSeg d (a + (k + 1)) n₂
      rw [ih (a + 1), h2]
      simp

theorem loop_silent_no_fire (T d : ℚ) (n : ℕ) :
    ∀ (a : ℕ) (b : ℚ) (r : Bool),
      (∀ i : ℕ, i < n → ((a : ℚ) + (i : ℚ) + 1) * d - b ≤ T) →
      loop T ⟨some b, r⟩ (silentSeg d a n) = (⟨some b, r⟩, []) := by
  induction n with
  | zero => intro a b r _; rfl
  | succ k ih =>
      intro a b r h
      have h0 : ((a : ℚ) + 1) * d - b ≤ T := by simpa using h 0 k.succ_pos
      show loop T ⟨some b, r⟩ ((((a : ℚ) + 1) * d, .noData) ::
        silentSeg d (a + 1) k) = (⟨some b, r⟩, [])
      rw [loop_cons, tick_noData_no_fire T _ b r h0, ih (a + 1) b r ?_]
      · simp
      · intro i hi
        have h2 := h (i + 1) (by omega)
        push_cast at h2 ⊢
        ring_nf at h2 ⊢
        exact h2

theorem mul_le_of_le_floor (T d : ℚ) (hd : 0 < d) (hT : 0 ≤ T) (k : ℕ)
    (hk : k ≤ ⌊T / d⌋₊) : (k : ℚ) * d ≤ T := by
  have h1 : (k : ℚ) ≤ (⌊T / d⌋₊ : ℚ) := by exact_mod_cast hk
  have h2 : ((⌊T / d⌋₊ : ℕ) : ℚ) ≤ T / d := Nat.floor_le (by positivity)
  calc (k : ℚ) * d ≤ T / d * d :=
        mul_le_mul_of_nonneg_right (h1.trans h2) hd.le
    _ = T := div_mul_cancel₀ T hd.ne'

theorem firePeriod_mul_gt (T d : ℚ) (hd : 0 < d) :
    T < (firePeriod T d : ℚ) * d := by
  have h1 : T / d < (⌊T / d⌋₊ : ℚ) + 1 := Nat.lt_floor_add_one (T / d)
  calc T = T / d * d := (div_mul_cancel₀ T hd.ne').symm
    _ < ((⌊T / d⌋₊ : ℚ) + 1) * d := mul_lt_mul_of_pos_right h1 hd
    _ = (firePeriod T d : ℚ) * d := by
        rw [firePeriod]; push_cast; ring

theorem firePeriod_mul_le (T d : ℚ) (hd : 0 < d) (hT : 0 ≤ T) :
    (firePeriod T d : ℚ) * d ≤ T + d := by
  have h2 : ((⌊T / d⌋₊ : ℕ) : ℚ) ≤ T / d := Nat.floor_le (by positivity)
  calc (firePeriod T d : ℚ) * d = ((⌊T / d⌋₊ : ℚ) + 1) * d := by
        rw [firePeriod]; push_cast; ring
    _ ≤ (T / d + 1) * d := mul_le_mul_of_nonneg_right (by linarith) hd.le
    _ = T + d := by rw [add_mul, div_mul_cancel₀ T hd.ne', one_mul]

theorem silentSeg_one (d : ℚ) (a : ℕ) :
    silentSeg d a 1 = [(((a : ℚ) + 1) * d, .noData)] := rfl

theorem loop_singleton (T : ℚ) (s : SessState) (t : ℚ) (inp : ReadOutcome) :
    loop T s [(t, inp)] = ((tick T t inp s).1, (tick T t inp s).2 ++ []) := rfl

theorem loop_silent_window (T d : ℚ) (hd : 0 < d) (hT : 0 ≤ T) (a : ℕ)
    (r : Bool) :
    loop T ⟨some ((a : ℚ) * d), r⟩ (silentSeg d a (firePeriod T d)) =
      (⟨some (((a + firePeriod T d : ℕ) : ℚ) * d), r⟩,
        [.timeout_occurred ((a : ℚ) * d)]) := by
  have hsplit : firePeriod T d = ⌊T / d⌋₊ + 1 := rfl
  rw [hsplit, silentSeg_append d a ⌊T / d⌋₊ 1, loop_append]
  rw [loop_silent_no_fire T d ⌊T / d⌋₊ a ((a : ℚ) * d) r ?hno]
  case hno =>
    intro i hi
    have hstep : ((i : ℚ) + 1) * d ≤ T := by
      have hc := mul_le_of_le_floor T d hd hT (i + 1) (by omega)
      push_cast at hc
      linarith
    ring_nf
    ring_nf at hstep
    linarith
  have hfire : (((a + ⌊T / d⌋₊ : ℕ) : ℚ) + 1) * d - (a : ℚ) * d > T := by
    have hgt := firePeriod_mul_gt T d hd
    rw [firePeriod] at hgt
    push_cast at hgt ⊢
    ring_nf at hgt ⊢
    linarith
  rw [silentSeg_one, loop_singleton, tick_noData_fire T _ _ r hfire]
  have ht : (((a + ⌊T / d⌋₊ : ℕ) : ℚ) + 1) * d =
      ((a + (⌊T / d⌋₊ + 1) : ℕ) : ℚ) * d := by
    push_cast
    ring
  rw [ht]
  simp

theorem loop_silent_main (T d : ℚ) (hd : 0 < d) (hT : 0 ≤ T) (m : ℕ) :
    ∀ (j a : ℕ) (r : Bool), j < firePeriod T d →
      loop T ⟨some ((a : ℚ) * d), r⟩
          (silentSeg d a (m * firePeriod T d + j)) =
        (⟨some (((a + m * firePeriod T d : ℕ) : ℚ) * d), r⟩,
          (List.range m).map (fun k =>
            MonitorEvent.timeout_occurred
              (((a + k * firePeriod T d : ℕ) : ℚ) * d))) := by
  induction m with
  | zero =>
      intro j a r hj
      simp only [Nat.zero_mul, Nat.zero_add, Nat.add_zero, List.range_zero,
        List.map_nil]
      rw [loop_silent_no_fire T d j a ((a : ℚ) * d) r ?_]
      intro i hi
      have hple : i + 1 ≤ ⌊T / d⌋₊ := by
        have hfp : firePeriod T d = ⌊T / d⌋₊ + 1 := rfl
        omega
      have hc := mul_le_of_le_floor T d hd hT (i + 1) hple
      push_cast at hc
      ring_nf
      ring_nf at hc
      linarith
  | succ m ih =>
      intro j a r hj
      have hsplit : (m + 1) * firePeriod T d + j =
          firePeriod T d + (m * firePeriod T d + j) := by ring
      rw [hsplit,
        silentSeg_append d a (firePeriod T d) (m * firePeriod T d + j),
        loop_append, loop_silent_window T d hd hT a r,
        ih j (a + firePeriod T d) r hj]
      have hstate : a + firePeriod T d + m * firePeriod T d =
          a + (m + 1) * firePeriod T d := by ring
      rw [hstate]
      have hgf : (fun k : ℕ => MonitorEvent.timeout_occurred
          (((a + firePeriod T d + k * firePeriod T d : ℕ) : ℚ) * d)) =
          fun k : ℕ => MonitorEvent.timeout_occurred
            (((a + (k + 1) * firePeriod T d : ℕ) : ℚ) * d) := by
        funext k
        have hk : a + firePeriod T d + k * firePeriod T d =
            a + (k + 1) * firePeriod T d := by ring
        rw [hk]
      simp only [List.nil_append, List.range_succ_eq_map, List.map_cons,
        List.map_map, Function.comp, Nat.zero_mul, Nat.add_zero,
        Nat.succ_eq_add_one]
      rw [hgf]
      simp [Function.comp_def]

/-! ## Claim theorems -/

/-- C1: in a loop iteration at time `t` whose elapsed time since
`last_received_time = some l` strictly exceeds the threshold, the tick
emits exactly one event, a `timeout_occurred` carrying the pre-reset
timestamp `l`; `last_received_time` is then reset to `t`; and any later
silent iteration within a further full idle period (`u - t ≤ T`) emits
nothing, so no second firing can occur until a full idle period elapses
again. -/
theorem timeout_fires_once_and_resets (T t l : ℚ) (s : SessState)
    (h : s.last_received_time = some l) (hgt : t - l > T) :
    (tick T t .noData s).2 = [.timeout_occurred l] ∧
    (tick T t .noData s).1.last_received_time = some t ∧
    ∀ u : ℚ, u - t ≤ T →
      (tick T u .noData (tick T t .noData s).1).2 = [] := by
  refine ⟨?_, ?_, ?_⟩
  · simp [tick, readStep, timeoutStep, h, hgt]
  · simp [tick, readStep, timeoutStep, h, hgt]
  · intro u hu
    simp [tick, readStep, timeoutStep, h, hgt, not_lt.mpr hu]

theorem timeout_fires_once_and_resets_witness :
    (tick 5 6 .noData ⟨some 0, true⟩).2 = [.timeout_occurred 0] ∧
    (tick 5 6 .noData ⟨some 0, true⟩).1.last_received_time = some 6 ∧
    (tick 5 11 .noData (tick 5 6 .noData ⟨some 0, true⟩).1).2 = [] := by
  obtain ⟨h1, h2, h3⟩ :=
    timeout_fires_once_and_resets 5 6 0 ⟨some 0, true⟩ rfl (by norm_num)
  exact ⟨h1, h2, h3 11 (by norm_num)⟩

/-- C2: the timeout comparison is strict.  A silent iteration at time `t`
with baseline `l` fires exactly when `t - l > T`; in particular an
elapsed time exactly equal to the threshold emits nothing at all. -/
theorem timeout_comparison_strict (T t l : ℚ) (s : SessState)
    (h : s.last_received_time = some l) :
    countFires (tick T t .noData s).2 = (if t - l > T then 1 else 0) ∧
    (t - l = T → (tick T t .noData s).2 = []) := by
  constructor
  · by_cases hgt : t - l > T
    · simp [tick, readStep, timeoutStep, h, hgt, countFires, List.countP,
        List.countP.go, isFire]
    · simp [tick, readStep, timeoutStep, h, hgt, countFires]
  · intro he
    simp [tick, readStep, timeoutStep, h, he]

theorem timeout_comparison_strict_witness :
    countFires (tick 5 5 .noData ⟨some 0, true⟩).2 = 0 ∧
    (tick 5 5 .noData ⟨some 0, true⟩).2 = [] ∧
    countFires (tick 5 6 .noData ⟨some 0, true⟩).2 = 1 := by
  have h1 := timeout_comparison_strict 5 5 0 ⟨some 0, true⟩ rfl
  have h2 := timeout_comparison_strict 5 6 0 ⟨some 0, true⟩ rfl
  refine ⟨?_, h1.2 (by norm_num), ?_⟩
  · rw [h1.1]; norm_num
  · rw [h2.1]; norm_num

/-- C3: a line whose stripped text is non-empty updates
`last_received_time` to the receipt time and emits exactly one
`data_received` carrying the stripped text; an empty or whitespace-only
line leaves the state unchanged and emits nothing; and per iteration the
number of `data_received` events is one for a non-empty line and zero
otherwise. -/
theorem line_read_updates_and_emits (raw : String) (t : ℚ) (last : Option ℚ)
    (T : ℚ) (s : SessState) :
    (pyStrip raw ≠ "" →
      readStep (.line raw) t last = (some t, [.data_received (pyStrip raw)])) ∧
    (pyStrip raw = "" → readStep (.line raw) t last = (last, [])) ∧
    countData (tick T t (.line raw) s).2 = (if pyStrip raw = "" then 0 else 1) := by
  refine ⟨?_, ?_, ?_⟩
  · intro h; simp [readStep, h]
  · intro h; simp [readStep, h]
  · rw [tick_events, countData_append, timeoutStep_no_data]
    by_cases h : pyStrip raw = "" <;>
      simp [readStep, h, countData, List.countP, List.countP.go, isData]

theorem line_read_updates_and_emits_witness :
    readStep (.line " hi\n") 3 none = (some 3, [.data_received "hi"]) ∧
    readStep (.line " \n") 3 (some 1) = (some 1, []) ∧
    countData (tick 5 3 (.line " hi\n") ⟨some 1, true⟩).2 = 1 := by
  refine ⟨(line_read_updates_and_emits " hi\n" 3 none 5 ⟨some 1, true⟩).1
      (by decide),
    (line_read_updates_and_emits " \n" 3 (some 1) 5 ⟨some 1, true⟩).2.1
      (by decide), ?_⟩
  rw [(line_read_updates_and_emits " hi\n" 3 (some 1) 5 ⟨some 1, true⟩).2.2]
  decide

/-- C4 counterexample: with threshold 5, baseline 0 and a read error at
the iterations at times 1 and 2, the loop emits an `error_occurred` in
each of the two iterations (two in total, not exactly one) and is still
running afterwards — a read error does not stop the monitoring loop from
within, contradicting the claim that the session does not continue
running and that the read is not retried. -/
theorem read_error_counterexample :
    countErrors ((loop 5 ⟨some 0, true⟩
        [(1, .readErr "boom"), (2, .readErr "boom")]).2) = 2 ∧
    ((loop 5 ⟨some 0, true⟩
        [(1, .readErr "boom"), (2, .readErr "boom")]).1).is_running = true := by
  have h1 : ¬((1 : ℚ) - 0 > 5) := by norm_num
  have h2 : ¬((2 : ℚ) - 0 > 5) := by norm_num
  constructor
  · simp [loop, tick, readStep, timeoutStep, h1, h2, countErrors,
      List.countP, List.countP.go, isErr]
  · rw [loop_is_running]

/-- C4 amended: a failing read emits exactly one `error_occurred` in its
own iteration, carrying the prefixed exception message, but the loop body
neither clears `is_running` nor changes `last_received_time`; the session
keeps running (and keeps polling) until `stop()` is invoked externally —
in the application this happens only when the consumer's
`on_error_occurred` handler calls `stop_monitoring`. -/
theorem read_error_emits_and_continues (T t : ℚ) (m : String) (s : SessState) :
    countErrors (tick T t (.readErr m) s).2 = 1 ∧
    MonitorEvent.error_occurred ("数据读取错误: " ++ m) ∈
      (tick T t (.readErr m) s).2 ∧
    (tick T t (.readErr m) s).1.is_running = s.is_running ∧
    (readStep (.readErr m) t s.last_received_time).1 =
      s.last_received_time := by
  refine ⟨?_, ?_, rfl, rfl⟩
  · rw [tick_events, countErrors_append, timeoutStep_no_err]
    simp [readStep, countErrors, List.countP, List.countP.go, isErr]
  · rw [tick_events]
    simp [readStep]

/-- C5: when opening the device fails, the run emits exactly one
`error_occurred` (and nothing else), `is_running` is never set true, the
final state is idle, and no connection handle is left open. -/
theorem open_failure_stays_idle (T : ℚ) (e : String) (t0 : ℚ)
    (ticks : List (ℚ × ReadOutcome)) :
    (runThread T (.error e) t0 ticks).events =
      [.error_occurred ("串口连接错误: " ++ e)] ∧
    countErrors (runThread T (.error e) t0 ticks).events = 1 ∧
    (runThread T (.error e) t0 ticks).ever_running = false ∧
    (runThread T (.error e) t0 ticks).final.is_running = false ∧
    isOpen (runThread T (.error e) t0 ticks).serial_conn = false :=
  ⟨rfl, rfl, rfl, rfl, rfl⟩

/-- C6: on every termination of `run` — loop exit after `stop()` as well
as open failure — no connection handle is left open, and the guarded
close of the `finally` block is idempotent: applied to an already-closed
or never-opened handle it changes nothing (a no-op, and being a total
function it can raise nothing), and applying it twice equals applying it
once. -/
theorem handle_released_and_close_idempotent (h : Option Bool) (T : ℚ)
    (openRes : Except String Unit) (t0 : ℚ)
    (ticks : List (ℚ × ReadOutcome)) :
    isOpen (closeIfOpen h) = false ∧
    (isOpen h = false → closeIfOpen h = h) ∧
    closeIfOpen (closeIfOpen h) = closeIfOpen h ∧
    isOpen (runThread T openRes t0 ticks).serial_conn = false := by
  refine ⟨?_, ?_, ?_, ?_⟩
  · cases h with
    | none => rfl
    | some b => cases b <;> rfl
  · intro hcl
    cases h with
    | none => rfl
    | some b =>
        cases b with
        | false => rfl
        | true => exact Bool.noConfusion hcl
  · cases h with
    | none => rfl
    | some b => cases b <;> rfl
  · cases openRes <;> rfl

theorem handle_released_and_close_idempotent_witness :
    isOpen (closeIfOpen none) = false ∧
    closeIfOpen none = none ∧
    closeIfOpen (closeIfOpen none) = closeIfOpen none ∧
    isOpen (runThread 5 (.ok ()) 0 []).serial_conn = false := by
  obtain ⟨a, b, c, d⟩ :=
    handle_released_and_close_idempotent none 5 (.ok ()) 0 []
  exact ⟨a, b rfl, c, d⟩

/-- C9: `start_monitoring` constructs a brand-new thread whose state is a
function of the configuration alone — identical for any two prior thread
states, with `last_received_time = None`, not running, and no handle —
and after a successful open the run's baseline is the new start time:
with an empty iteration schedule the final `last_received_time` is
exactly the start time, so no timeout progress can leak across a
stop/start boundary. -/
theorem start_creates_fresh_session (old1 old2 : Option ThreadState)
    (port : String) (baudrate : ℕ) (T t0 : ℚ) :
    start_monitoring old1 port baudrate T =
      start_monitoring old2 port baudrate T ∧
    (start_monitoring old1 port baudrate T).last_received_time = none ∧
    (start_monitoring old1 port baudrate T).is_running = false ∧
    (start_monitoring old1 port baudrate T).serial_conn = none ∧
    (runThread T (.ok ()) t0 []).final.last_received_time = some t0 :=
  ⟨rfl, rfl, rfl, rfl, rfl⟩

/-- C10: an iteration that emits `data_received` emits no
`timeout_occurred` in the same iteration: the timeout check runs after
the data handling and compares against the just-updated
`last_received_time`, whose elapsed time at tick granularity is zero and
so cannot exceed the non-negative threshold. -/
theorem data_tick_never_fires (T t : ℚ) (raw : String) (s : SessState)
    (hraw : pyStrip raw ≠ "") (hT : 0 ≤ T) :
    (tick T t (.line raw) s).2 = [.data_received (pyStrip raw)] := by
  have hT' : ¬ T < 0 := not_lt.mpr hT
  simp [tick, readStep, timeoutStep, hraw, sub_self, hT']

theorem data_tick_never_fires_witness :
    (tick 5 3 (.line "ping\n") ⟨some 0, true⟩).2 =
      [.data_received "ping"] := by
  rw [data_tick_never_fires 5 3 "ping\n" ⟨some 0, true⟩ (by decide)
    (by norm_num)]
  decide

/-- C8: over any iteration schedule in which every iteration happens
within `timeout_seconds` of the most recent non-empty-line arrival (the
session start counting as the initial arrival) — which holds in
particular whenever the inter-arrival gaps of the incoming lines are all
strictly below the threshold and the observed run is covered by the
arrivals — the loop emits zero `timeout_occurred` events. -/
theorem no_fires_when_gaps_small (T b : ℚ) (r : Bool)
    (ticks : List (ℚ × ReadOutcome)) (h : gapsOk T b ticks = true) :
    countFires (loop T ⟨some b, r⟩ ticks).2 = 0 := by
  induction ticks generalizing b with
  | nil => rfl
  | cons head rest ih =>
      obtain ⟨t, inp⟩ := head
      simp only [gapsOk, Bool.and_eq_true, decide_eq_true_eq] at h
      obtain ⟨hle, hrest⟩ := h
      have kv := readStep_getD inp t b
      have hstep : tick T t inp ⟨some b, r⟩ =
          (⟨some (((readStep inp t (some b)).1).getD b), r⟩,
            (readStep inp t (some b)).2 ++ []) := by
        show ((⟨(timeoutStep T t (readStep inp t (some b)).1).1, r⟩ :
              SessState),
            (readStep inp t (some b)).2 ++
              (timeoutStep T t (readStep inp t (some b)).1).2) =
          ((⟨some (((readStep inp t (some b)).1).getD b), r⟩ : SessState),
            (readStep inp t (some b)).2 ++ [])
        rw [kv, timeoutStep_no_fire _ _ _ hle]
        simp
      rw [loop_cons, countFires_append, hstep, List.append_nil,
        readStep_no_fire, ih _ hrest]

theorem no_fires_when_gaps_small_witness :
    gapsOk 5 0 [(3, .line "a\n"), (6, .noData), (7, .line "x"),
      (11, .noData)] = true ∧
    countFires (loop 5 ⟨some 0, true⟩ [(3, .line "a\n"), (6, .noData),
      (7, .line "x"), (11, .noData)]).2 = 0 := by
  have ha : pyStrip "a\n" ≠ "" := by decide
  have hx : pyStrip "x" ≠ "" := by decide
  have hg : gapsOk 5 0 [(3, .line "a\n"), (6, .noData), (7, .line "x"),
      (11, .noData)] = true := by
    simp [gapsOk, readStep, ha, hx]
    norm_num
  exact ⟨hg, no_fires_when_gaps_small 5 0 true _ hg⟩

/-- C7: with a device that never delivers data, polled at fixed cadence
`d` starting from baseline 0, the loop fires exactly once per
`firePeriod T d` iterations, indefinitely for any schedule length `n`:
the whole event sequence is `timeout_occurred` at baselines
`0, p*d, 2*p*d, ...` (each firing carrying, and then resetting, the
baseline), and the firing period `p*d` satisfies `T < p*d ≤ T + d` — one
firing per idle window of length approximately `T`. -/
theorem silent_device_periodic_fires (T d : ℚ) (n : ℕ) (hd : 0 < d)
    (hT : 0 ≤ T) :
    T < (firePeriod T d : ℚ) * d ∧
    (firePeriod T d : ℚ) * d ≤ T + d ∧
    (loop T ⟨some 0, true⟩ (silentSeg d 0 n)).2 =
      (List.range (n / firePeriod T d)).map (fun k =>
        MonitorEvent.timeout_occurred
          (((k * firePeriod T d : ℕ) : ℚ) * d)) ∧
    (loop T ⟨some 0, true⟩ (silentSeg d 0 n)).1.last_received_time =
      some (((n / firePeriod T d * firePeriod T d : ℕ) : ℚ) * d) := by
  have hp : 0 < firePeriod T d := Nat.succ_pos _
  have hn : n / firePeriod T d * firePeriod T d + n % firePeriod T d = n := by
    have hdm := Nat.div_add_mod n (firePeriod T d)
    rw [Nat.mul_comm (firePeriod T d) (n / firePeriod T d)] at hdm
    exact hdm
  have key := loop_silent_main T d hd hT (n / firePeriod T d)
    (n % firePeriod T d) 0 true (Nat.mod_lt n hp)
  rw [hn] at key
  simp only [Nat.cast_zero, zero_mul, Nat.zero_add] at key
  refine ⟨firePeriod_mul_gt T d hd, firePeriod_mul_le T d hd hT, ?_, ?_⟩
  · rw [key]
  · rw [key]

theorem silent_device_periodic_fires_witness :
    (loop 5 ⟨some 0, true⟩ (silentSeg 2 0 7)).2 =
      [.timeout_occurred 0, .timeout_occurred 6] ∧
    (loop 5 ⟨some 0, true⟩ (silentSeg 2 0 7)).1.last_received_time =
      some 12 ∧
    firePeriod 5 2 = 3 := by
  have hfl : ⌊(5 : ℚ) / 2⌋₊ = 2 := by
    rw [Nat.floor_eq_iff (by norm_num)]
    norm_num
  have hfp : firePeriod 5 2 = 3 := by
    rw [firePeriod, hfl]
  have h := silent_device_periodic_fires 5 2 7 (by norm_num) (by norm_num)
  obtain ⟨-, -, h3, h4⟩ := h
  rw [hfp] at h3 h4
  norm_num at h3 h4
  refine ⟨?_, ?_, hfp⟩
  · rw [h3]
    simp [List.range_succ]
    norm_num
  · rw [h4]

end GoSynch
